import Mathlib

/-!
Shallow embedding of the ByteBeam server core (`src/server/appstate.rs`,
`src/server/server.rs`, `src/server/keymanager.rs`, `src/server/serveropts.rs`,
`src/utils/metadata.rs`, `src/utils/compression.rs`).

Modelling conventions:
* The three registry maps (`files`, `uploads`, `downloads`) are association
  lists with `HashMap` lookup/insert/remove semantics (`mapLookup`,
  `mapInsert`, `mapErase`).
* Timestamps are integers; `Utc::now()` values reaching a function are passed
  in as an explicit `now` argument.
* Random token generation (`ServerOptions::generate_upload_token` /
  `generate_key_token`) is passed in as explicit fresh-string arguments.
* `tokio::sync::mpsc` channel ends are opaque handles: a `Sender` carries an
  id and its observable `capacity()` (used by `AppState::upgrade`); cloning a
  `Sender` yields the same handle value.
* `KeyManager::verify` performs SSH signature verification; it is modelled as
  an abstract Boolean function `verify user challenge response` passed to
  `AppState.upgrade`, since that is the only way `upgrade` observes it.
-/

namespace ByteBeam

/-- `FileState` from `src/utils/metadata.rs`. -/
inductive FileState
  | NotStarted
  | InProgress
  | Paused
  | Complete
deriving DecidableEq, Repr, BEq

/-- `Compression` from `src/utils/compression.rs`. -/
inductive Compression
  | None
  | Brotli
  | Deflate
  | Gzip
  | Zstd
deriving DecidableEq, Repr, BEq

instance : LawfulBEq FileState where
  eq_of_beq := by intro a b h; cases a <;> cases b <;> first | rfl | exact absurd h (by decide)
  rfl := by intro a; cases a <;> rfl

instance : LawfulBEq Compression where
  eq_of_beq := by intro a b h; cases a <;> cases b <;> first | rfl | exact absurd h (by decide)
  rfl := by intro a; cases a <;> rfl

/-- `FileSize` from `src/utils/metadata.rs`. -/
structure FileSize where
  file_size : Option Nat
  uploaded_size : Nat
  downloaded_size : Nat
  upload_complete : Bool
  file_size_trustworthy : Bool
deriving DecidableEq, Repr

/-- `FileSize::new(trusted)`. -/
def FileSize.new (trusted : Bool) : FileSize :=
  { file_size := Option.none
    uploaded_size := 0
    downloaded_size := 0
    upload_complete := false
    file_size_trustworthy := trusted }

/-- `FileSize::set_file_size`. -/
def FileSize.set_file_size (fs : FileSize) (size : Nat) : FileSize :=
  { fs with file_size := some size }

/-- `FileSize::set_trustworthiness`. -/
def FileSize.set_trustworthiness (fs : FileSize) (trusted : Bool) : FileSize :=
  { fs with file_size_trustworthy := trusted }

/-- `FileSize::get_content_length`. -/
def FileSize.get_content_length (fs : FileSize) : Option Nat :=
  if fs.file_size_trustworthy then fs.file_size
  else if fs.upload_complete then some fs.uploaded_size
  else Option.none

/-- `FileMetadata` from `src/utils/metadata.rs`; timestamps are integers. -/
structure FileMetadata where
  file_name : String
  file_size : FileSize
  compression : Compression
  path : String
  upload_key : String
  upload : FileState
  download : FileState
  created : Int
  accessed : Int
  authed_user : Option String
  challenge : String
  authenticated : Bool
deriving DecidableEq, Repr

namespace FileMetadata

/-- `FileMetadata::upload_locked`. -/
def upload_locked (m : FileMetadata) : Bool :=
  m.upload == FileState.InProgress || m.upload == FileState.Complete

/-- `FileMetadata::download_finished`. -/
def download_finished (m : FileMetadata) : Bool :=
  m.download == FileState.Complete

/-- `FileMetadata::check_key`. -/
def check_key (m : FileMetadata) (key : String) : Bool :=
  m.upload_key == key

/-- `FileMetadata::start_upload`: checks the key, then marks the upload as
`InProgress`. The pair is (updated metadata, returned Bool). -/
def start_upload (m : FileMetadata) (key : String) : FileMetadata × Bool :=
  if !(m.check_key key) then (m, false)
  else ({ m with upload := FileState.InProgress }, true)

/-- `FileMetadata::end_upload`. -/
def end_upload (m : FileMetadata) : FileMetadata :=
  { m with upload := FileState.Complete }

/-- `FileMetadata::start_download`. -/
def start_download (m : FileMetadata) : FileMetadata :=
  { m with download := FileState.InProgress }

/-- `FileMetadata::pause_download`. -/
def pause_download (m : FileMetadata) : FileMetadata :=
  { m with download := FileState.Paused }

/-- `FileMetadata::end_download`. -/
def end_download (m : FileMetadata) : FileMetadata :=
  { m with download := FileState.Complete }

/-- `FileMetadata::download_locked`. -/
def download_locked (m : FileMetadata) : Bool :=
  m.download == FileState.InProgress || m.download == FileState.Complete

/-- `FileMetadata::download_pausable`. -/
def download_pausable (m : FileMetadata) : Bool :=
  m.download == FileState.InProgress

/-- `FileMetadata::redact`: replaces `file_name` and `upload_key` with the
sentinel string "null" and copies every other field (including `file_size`)
from `self`. -/
def redact (m : FileMetadata) : FileMetadata :=
  { file_name := "null"
    upload_key := "null"
    file_size := m.file_size
    upload := m.upload
    download := m.download
    path := m.path
    created := m.created
    accessed := m.accessed
    authed_user := m.authed_user
    challenge := m.challenge
    authenticated := m.authenticated
    compression := m.compression }

/-- `FileMetadata::access`: `accessed = Utc::now()`. -/
def access (m : FileMetadata) (now : Int) : FileMetadata :=
  { m with accessed := now }

/-- `FileMetadata::age`: `Utc::now() - self.accessed`. -/
def age (m : FileMetadata) (now : Int) : Int :=
  now - m.accessed

/-- `FileMetadata::is_in_waiting_state`: note the disjunction over the two
sides, exactly as in the source. -/
def is_in_waiting_state (m : FileMetadata) : Bool :=
  m.download == FileState.NotStarted || m.upload == FileState.NotStarted

/-- `FileMetadata::get_challenge_details`. -/
def get_challenge_details (m : FileMetadata) : Option (Bool × String × String) :=
  match m.authed_user with
  | some user => some (m.authenticated, user, m.challenge)
  | Option.none => Option.none

/-- `FileMetadata::upgrade`: flips `authenticated`, rotates `path` and
`upload_key` (the freshly generated tokens are passed in), refreshes
`accessed`. -/
def upgrade (m : FileMetadata) (newPath newKey : String) (now : Int) : FileMetadata :=
  { m with
    authenticated := true
    path := newPath
    upload_key := newKey
    accessed := now }

/-- `FileMetadata::set_compression`: sets the field, then flips
`file_size.file_size_trustworthy` to false for a non-None compression and to
true for `Compression::None`. -/
def set_compression (m : FileMetadata) (c : Compression) : FileMetadata :=
  let m' := { m with compression := c }
  if m'.compression ≠ Compression.None then
    { m' with file_size := m'.file_size.set_trustworthiness false }
  else
    { m' with file_size := m'.file_size.set_trustworthiness true }

end FileMetadata

/-- `ServerOptions` from `src/server/serveropts.rs`; the two token-format
strings are dropped because token generation is modelled by explicit fresh
arguments. -/
structure ServerOptions where
  cache_size : Nat
  block_size : Nat
  cull_time : Int
  packet_delay : Option Int
deriving DecidableEq, Repr

/-- A `tokio::sync::mpsc::Sender<Vec<u8>>` handle: an identity plus the
currently observable `capacity()`. `clone()` returns the same handle value. -/
structure Sender where
  id : Nat
  capacity : Nat
deriving DecidableEq, Repr

/-- A `tokio::sync::mpsc::Receiver<Vec<u8>>` handle. -/
structure Receiver where
  id : Nat
deriving DecidableEq, Repr

/-- An association list with `HashMap<String, V>` semantics. -/
abbrev StrMap (V : Type) := List (String × V)

/-- `HashMap::get`: the value stored under `k`. -/
def mapLookup (k : String) : StrMap V → Option V
  | [] => Option.none
  | (k', v) :: rest => if k' = k then some v else mapLookup k rest

/-- `HashMap::remove` (all bindings of `k` go away). -/
def mapErase (k : String) : StrMap V → StrMap V
  | [] => []
  | (k', v) :: rest => if k' = k then mapErase k rest else (k', v) :: mapErase k rest

/-- `HashMap::insert`: `k` now maps to `v`, all other keys are untouched. -/
def mapInsert (k : String) (v : V) (m : StrMap V) : StrMap V :=
  (k, v) :: mapErase k m

/-- The HTTP status codes `AppState::begin_upload` can produce. -/
inductive StatusCode
  | NOT_FOUND
  | CONFLICT
  | FORBIDDEN
  | GONE
deriving DecidableEq, Repr

/-- `AppState` from `src/server/appstate.rs`: the three registry maps plus the
two tier option bundles. `KeyManager` is modelled as a function argument of
`AppState.upgrade` (the only operation that consults it). -/
structure AppState where
  files : StrMap FileMetadata
  uploads : StrMap Sender
  downloads : StrMap Receiver
  reg_options : ServerOptions
  auth_options : ServerOptions
deriving DecidableEq, Repr

namespace AppState

/-- `AppState::upgrade`. `verify` stands for `self.keys.verify`; `newPath` and
`newKey` are the tokens `FileMetadata::upgrade` draws under the authenticated
tier's templates; `now` is `Utc::now()`; `freshId` identifies the channel
created with `channel(self.auth_options.get_cache_size())`.

The source iterates over `challenge_responses`, but every arm of the loop body
returns, so only the first element is ever examined; the empty list falls
through to `return None`. -/
def upgrade (verify : String → String → String → Bool) (st : AppState)
    (ticket : String) (challenge_responses : List String)
    (newPath newKey : String) (now : Int) (freshId : Nat) :
    Option FileMetadata × AppState :=
  match mapLookup ticket st.files with
  | Option.none => (Option.none, st)
  | some file =>
    match file.get_challenge_details with
    | Option.none => (Option.none, st)
    | some (authenticated, user, challenge) =>
      match challenge_responses with
      | [] => (Option.none, st)
      | challenge_response :: _ =>
        if authenticated then (some file, st)
        else if verify user challenge challenge_response then
          let file' := file.upgrade newPath newKey now
          let tx : Sender := ⟨freshId, st.auth_options.cache_size⟩
          let rx : Receiver := ⟨freshId⟩
          let moved : StrMap Sender × StrMap Receiver :=
            match mapLookup ticket st.uploads with
            | some tik =>
              if tik.capacity ≠ st.reg_options.cache_size then
                (mapInsert file'.path tik (mapErase ticket st.uploads), st.downloads)
              else
                (mapInsert file'.path tx (mapErase ticket st.uploads),
                 mapInsert ticket rx st.downloads)
            | Option.none => (mapErase ticket st.uploads, st.downloads)
          let downloads' :=
            match mapLookup ticket moved.2 with
            | some tik => mapInsert file'.path tik (mapErase ticket moved.2)
            | Option.none => mapErase ticket moved.2
          let files' :=
            match mapLookup ticket st.files with
            | some _ => mapInsert file'.path file' (mapErase ticket st.files)
            | Option.none => mapErase ticket st.files
          (some file',
           { st with files := files', uploads := moved.1, downloads := downloads' })
        else (Option.none, st)

/-- `AppState::begin_upload`. The registry's `Sender` is cloned on success, so
the `uploads` map keeps its entry; the metadata's upload state is set to
`InProgress` via `FileMetadata::start_upload`. -/
def begin_upload (st : AppState) (ticket key : String) :
    Except (StatusCode × String) (Sender × ServerOptions) × AppState :=
  match mapLookup ticket st.files with
  | some meta =>
    if meta.upload_locked then
      (Except.error (StatusCode.CONFLICT, "File is already locked for upload"), st)
    else if !(meta.check_key key) then
      (Except.error (StatusCode.FORBIDDEN, "File has a different key"), st)
    else
      match mapLookup ticket st.uploads with
      | some tx =>
        let opts := if meta.authenticated then st.auth_options else st.reg_options
        (Except.ok (tx, opts),
         { st with files := mapInsert ticket (meta.start_upload key).1 st.files })
      | Option.none =>
        (Except.error (StatusCode.GONE, "Upload does not exist, it is already in progress"), st)
  | Option.none =>
    (Except.error (StatusCode.NOT_FOUND, "Upload ticket does not exist"), st)

/-- `AppState::begin_download`: fails on `download_locked`, otherwise moves
the consumer out of the `downloads` map and marks the download `InProgress`. -/
def begin_download (st : AppState) (ticket : String) :
    Option Receiver × AppState :=
  match mapLookup ticket st.files with
  | some meta =>
    if meta.download_locked then (Option.none, st)
    else
      match mapLookup ticket st.downloads with
      | some rx =>
        (some rx,
         { st with
           files := mapInsert ticket meta.start_download st.files
           downloads := mapErase ticket st.downloads })
      | Option.none => (Option.none, st)
  | Option.none => (Option.none, st)

/-- `AppState::return_download`: only if `download_pausable`; re-inserts the
consumer and pauses the download. -/
def return_download (st : AppState) (ticket : String) (stream : Receiver) :
    Bool × AppState :=
  match mapLookup ticket st.files with
  | some meta =>
    if meta.download_pausable then
      (true,
       { st with
         downloads := mapInsert ticket stream st.downloads
         files := mapInsert ticket meta.pause_download st.files })
    else (false, st)
  | Option.none => (false, st)

/-- `AppState::set_metadata`: each present field is written directly onto the
metadata. The source assigns `size.unwrap()` to the `file_size` field, whose
declared type in `src/utils/metadata.rs` is the `FileSize` record; the only
type-correct reading (`FileSize::set_file_size`) updates the declared-size
sub-field, and is used here. The compression arm assigns the `compression`
field directly — it does not go through `FileMetadata::set_compression`, so
`file_size.file_size_trustworthy` is not touched. -/
def set_metadata (st : AppState) (ticket : String) (name : Option String)
    (size : Option Nat) (compression : Option Compression) : Bool × AppState :=
  match mapLookup ticket st.files with
  | some meta =>
    let meta := match name with
      | some n => { meta with file_name := n }
      | Option.none => meta
    let meta := match size with
      | some s => { meta with file_size := meta.file_size.set_file_size s }
      | Option.none => meta
    let meta := match compression with
      | some c => { meta with compression := c }
      | Option.none => meta
    (true, { st with files := mapInsert ticket meta st.files })
  | Option.none => (false, st)

/-- `AppState::delete`: returns false without touching anything when the
ticket is absent from `files`; otherwise removes the ticket from all three
maps and returns true. -/
def delete (st : AppState) (ticket : String) : Bool × AppState :=
  if (mapLookup ticket st.files).isSome then
    (true,
     { st with
       files := mapErase ticket st.files
       uploads := mapErase ticket st.uploads
       downloads := mapErase ticket st.downloads })
  else (false, st)

/-- The `to_remove` list computed by `AppState::cull`: the keys of `files`
whose metadata's `age` exceeds its tier's `cull_time` (tier chosen by the
ticket's own `authenticated` flag) and which are `is_in_waiting_state`. -/
def cullCandidates (st : AppState) (now : Int) : List String :=
  ((st.files.map Prod.fst).filter (fun id =>
    match mapLookup id st.files with
    | some m =>
      decide (m.age now >
        (if m.authenticated then st.auth_options.cull_time else st.reg_options.cull_time))
    | Option.none => false)).filter (fun id =>
    match mapLookup id st.files with
    | some m => m.is_in_waiting_state
    | Option.none => false)

/-- `AppState::cull`: collects `to_remove` under the lock, then deletes each
collected id, returning how many ids were collected. -/
def cull (st : AppState) (now : Int) : Nat × AppState :=
  ((AppState.cullCandidates st now).length,
   (AppState.cullCandidates st now).foldl (fun s id => (s.delete id).2) st)

end AppState

/-! Payload chunking performed by the `upload` handler in
`src/server/server.rs` (lines 437-476): network chunks are appended to a
reassembly buffer; while the buffer holds at least `block_size` bytes, exactly
`block_size` bytes are split off and sent to the producer; at end of field the
buffer's remainder is sent, followed by an empty chunk as completion sentinel.
Bytes are modelled as `Nat`, a chunk as `List Nat`; producer sends always
succeed in this model (the claim is about what is enqueued). -/

/-- One run of the handler's inner `while buffer.len() >= block_size` loop:
repeatedly split `b` bytes off the front of the buffer, returning the sent
blocks and the final buffer. Structural recursion on a fuel that is at least
the buffer length (each iteration consumes `b ≥ 1` bytes, so the loop of the
source terminates within `buffer.length` rounds; the source's loop would not
terminate for `b = 0`, and the `0 < b` conjunct keeps the model honest
there). -/
def flushLoop (b : Nat) : Nat → List Nat → List (List Nat) × List Nat
  | 0, buf => ([], buf)
  | fuel + 1, buf =>
    if 0 < b ∧ b ≤ buf.length then
      (buf.take b :: (flushLoop b fuel (buf.drop b)).1, (flushLoop b fuel (buf.drop b)).2)
    else ([], buf)

/-- The inner while loop run on a buffer, with enough fuel. -/
def flushBlocks (b : Nat) (buf : List Nat) : List (List Nat) × List Nat :=
  flushLoop b buf.length buf

/-- The handler's outer loop over the field's network chunks: each chunk is
appended to the buffer (`buffer.put(chunk)`), then the inner loop flushes full
blocks. Returns (blocks sent so far, buffer). -/
def processField (b : Nat) (cs : List (List Nat)) : List (List Nat) × List Nat :=
  cs.foldl (fun acc c =>
    (acc.1 ++ (flushBlocks b (acc.2 ++ c)).1, (flushBlocks b (acc.2 ++ c)).2)) ([], [])

/-- Everything the `upload` handler enqueues into the producer for one payload
field: the full blocks, then `upload.send(buffer.to_vec())` (the remainder),
then `upload.send(vec![])` (the sentinel). -/
def uploadSends (b : Nat) (cs : List (List Nat)) : List (List Nat) :=
  let p := processField b cs
  p.1 ++ [p.2, []]

/-! Concrete fixtures used by witness and counterexample theorems. They mirror
the default public-tier configuration of `src/server/server.rs` and a freshly
minted ticket `"t1"` with upload key `"k1"`, challenge `"c1"` and intended
user `"alice"`. -/

/-- Default public tier (capacity 1, block 4096, cull 1 h, 1 s delay). -/
def exRegOptions : ServerOptions :=
  { cache_size := 1, block_size := 4096, cull_time := 3600, packet_delay := some 1000 }

/-- Default authenticated tier (capacity 262144, block 4096, cull 1 h). -/
def exAuthOptions : ServerOptions :=
  { cache_size := 262144, block_size := 4096, cull_time := 3600, packet_delay := Option.none }

/-- A freshly minted ticket's metadata. -/
def exMeta : FileMetadata :=
  { file_name := "hello.txt"
    file_size := FileSize.new true
    compression := Compression.None
    path := "t1"
    upload_key := "k1"
    upload := FileState.NotStarted
    download := FileState.NotStarted
    created := 0
    accessed := 0
    authed_user := some "alice"
    challenge := "c1"
    authenticated := false }

/-- The producer handle minted with the ticket (public capacity 1, unused). -/
def exSender : Sender := ⟨0, 1⟩

/-- The consumer handle minted with the ticket. -/
def exReceiver : Receiver := ⟨0⟩

/-- A registry holding exactly the ticket `"t1"` with the given metadata. -/
def mkState (m : FileMetadata) : AppState :=
  { files := [("t1", m)]
    uploads := [("t1", exSender)]
    downloads := [("t1", exReceiver)]
    reg_options := exRegOptions
    auth_options := exAuthOptions }

/-- Registry with the freshly minted ticket. -/
def exState : AppState := mkState exMeta

/-- Non-trivial size record under gzip compression. -/
def exSizeGzip : FileSize :=
  { file_size := some 6, uploaded_size := 6, downloaded_size := 3
    upload_complete := false, file_size_trustworthy := false }

/-- Metadata with gzip compression and non-zero size counters. -/
def exMetaGzip : FileMetadata :=
  { exMeta with compression := Compression.Gzip, file_size := exSizeGzip }

/-- Metadata whose upload has begun. -/
def exMetaLocked : FileMetadata := { exMeta with upload := FileState.InProgress }

/-- Registry whose only ticket is upload-locked. -/
def exStateLocked : AppState := mkState exMetaLocked

/-- Metadata of an already-upgraded ticket. -/
def exMetaAuth : FileMetadata := { exMeta with authenticated := true }

/-- Registry whose only ticket is already authenticated. -/
def exStateAuth : AppState := mkState exMetaAuth

/-- Metadata whose download is in progress. -/
def exMetaDl : FileMetadata := { exMeta with download := FileState.InProgress }

/-- Registry whose only ticket has a download in progress. -/
def exStateDl : AppState := mkState exMetaDl

/-- A key directory accepting exactly the challenge response `"good"`. -/
def exVerify : String → String → String → Bool := fun _ _ response => response == "good"

/-- Metadata with both upload and download under way. -/
def exMetaBoth : FileMetadata :=
  { exMeta with upload := FileState.InProgress, download := FileState.InProgress }

/-- Registry whose only ticket has both sides under way. -/
def exStateBoth : AppState := mkState exMetaBoth

/-! Association-list map lemmas. -/

theorem mapLookup_erase_self (k : String) (m : StrMap V) :
    mapLookup k (mapErase k m) = Option.none := by
  induction m with
  | nil => rfl
  | cons p rest ih =>
    obtain ⟨k', v⟩ := p
    by_cases h : k' = k
    · simp [mapErase, h, ih]
    · simp [mapErase, h, mapLookup, ih]

theorem mapLookup_erase_ne (k k' : String) (m : StrMap V) (h : k' ≠ k) :
    mapLookup k' (mapErase k m) = mapLookup k' m := by
  induction m with
  | nil => rfl
  | cons p rest ih =>
    obtain ⟨k₀, v⟩ := p
    simp only [mapErase, mapLookup]
    by_cases hk : k₀ = k
    · rw [if_pos hk, ih, if_neg (fun hc : k₀ = k' => h (hc ▸ hk))]
    · rw [if_neg hk]
      simp only [mapLookup]
      by_cases hk' : k₀ = k'
      · rw [if_pos hk', if_pos hk']
      · rw [if_neg hk', if_neg hk', ih]

@[simp] theorem mapLookup_insert_self (k : String) (v : V) (m : StrMap V) :
    mapLookup k (mapInsert k v m) = some v := by
  simp [mapInsert, mapLookup]

theorem mapLookup_insert_ne (k k' : String) (v : V) (m : StrMap V) (h : k' ≠ k) :
    mapLookup k' (mapInsert k v m) = mapLookup k' m := by
  simp only [mapInsert, mapLookup]
  rw [if_neg (fun hc : k = k' => h hc.symm), mapLookup_erase_ne k k' m h]

theorem mapLookup_mem_keys (k : String) (v : V) (m : StrMap V)
    (h : mapLookup k m = some v) : k ∈ m.map Prod.fst := by
  induction m with
  | nil => simp [mapLookup] at h
  | cons p rest ih =>
    obtain ⟨k₀, v₀⟩ := p
    by_cases hk : k₀ = k
    · simp [hk]
    · simp [mapLookup, hk] at h
      simp [ih h]

/-- C2 (amended): `FileMetadata::redact` replaces `file_name` and `upload_key`
with the sentinel string "null" and copies every other field unchanged — in
particular the whole `file_size` record (declared size, uploaded and
downloaded counters) is kept verbatim even when compression is in effect; no
field is zeroed. -/
theorem redact_fields (m : FileMetadata) :
    m.redact.file_name = "null" ∧
    m.redact.upload_key = "null" ∧
    m.redact.file_size = m.file_size ∧
    m.redact.compression = m.compression ∧
    m.redact.path = m.path ∧
    m.redact.upload = m.upload ∧
    m.redact.download = m.download ∧
    m.redact.created = m.created ∧
    m.redact.accessed = m.accessed ∧
    m.redact.authed_user = m.authed_user ∧
    m.redact.challenge = m.challenge ∧
    m.redact.authenticated = m.authenticated :=
  ⟨rfl, rfl, rfl, rfl, rfl, rfl, rfl, rfl, rfl, rfl, rfl, rfl⟩

/-- C2 counterexample: a gzip-compressed ticket with declared size 6,
uploaded counter 6 and downloaded counter 3 keeps all three values after
`redact()`, so the claimed zeroing of the sender-side byte counts under
compression does not happen. -/
theorem redact_keeps_sizes_cex :
    exMetaGzip.compression ≠ Compression.None ∧
    exMetaGzip.redact.file_size.file_size = some 6 ∧
    exMetaGzip.redact.file_size.uploaded_size = 6 ∧
    exMetaGzip.redact.file_size.downloaded_size = 3 := by
  refine ⟨by decide, rfl, rfl, rfl⟩

/-- C10: `AppState::delete` returns true exactly when the ticket is present
in the `files` map; when it returns false the whole state is returned
untouched, and when it returns true the ticket's entries are erased from all
three maps. -/
theorem delete_iff_present (st : AppState) (t : String) :
    ((st.delete t).1 = true ↔ (mapLookup t st.files).isSome = true) ∧
    (mapLookup t st.files = Option.none → st.delete t = (false, st)) ∧
    ((mapLookup t st.files).isSome = true →
      (st.delete t).2.files = mapErase t st.files ∧
      (st.delete t).2.uploads = mapErase t st.uploads ∧
      (st.delete t).2.downloads = mapErase t st.downloads ∧
      mapLookup t (st.delete t).2.files = Option.none ∧
      mapLookup t (st.delete t).2.uploads = Option.none ∧
      mapLookup t (st.delete t).2.downloads = Option.none) := by
  by_cases h : (mapLookup t st.files).isSome = true
  · have hd : st.delete t =
        (true, { st with
                 files := mapErase t st.files
                 uploads := mapErase t st.uploads
                 downloads := mapErase t st.downloads }) := by
      simp [AppState.delete, h]
    rw [hd]
    refine ⟨by simp [h], ?_, ?_⟩
    · intro hn
      rw [hn] at h
      simp at h
    · intro _
      exact ⟨rfl, rfl, rfl, mapLookup_erase_self t st.files,
        mapLookup_erase_self t st.uploads, mapLookup_erase_self t st.downloads⟩
  · have hd : st.delete t = (false, st) := by
      simp [AppState.delete, h]
    rw [hd]
    exact ⟨by simp [h], fun _ => rfl, fun hs => absurd hs h⟩

/-- C10 witness: deleting the present ticket "t1" succeeds, deleting an
absent ticket reports false and leaves the registry exactly as it was. -/
theorem delete_iff_present_witness :
    (exState.delete "t1").1 = true ∧ exState.delete "missing" = (false, exState) :=
  ⟨(delete_iff_present exState "t1").1.mpr (by rfl),
   (delete_iff_present exState "missing").2.1 (by rfl)⟩

/-- C9: for a ticket that exists and is already upload-locked, `begin_upload`
with a key that differs from the ticket's `upload_key` still answers Conflict
(409), not Forbidden (403): the lock check precedes key validation. The
registry is left unchanged. -/
theorem begin_upload_conflict_over_forbidden
    (st : AppState) (t k : String) (m : FileMetadata)
    (hm : mapLookup t st.files = some m)
    (hlock : m.upload_locked = true)
    (_hkey : m.check_key k = false) :
    st.begin_upload t k =
      (Except.error (StatusCode.CONFLICT, "File is already locked for upload"), st) := by
  unfold AppState.begin_upload
  rw [hm]
  simp [hlock]

/-- C9 witness: the concrete upload-locked ticket queried with the wrong key
yields Conflict. -/
theorem begin_upload_conflict_over_forbidden_witness :
    exStateLocked.begin_upload "t1" "wrong" =
      (Except.error (StatusCode.CONFLICT, "File is already locked for upload"),
       exStateLocked) :=
  begin_upload_conflict_over_forbidden exStateLocked "t1" "wrong" exMetaLocked
    (by rfl) (by rfl) (by rfl)

/-- C4: complete case analysis of `AppState::begin_upload`. The five cases are
mutually exclusive and exhaustive, so each status is returned exactly under
its stated condition: NotFound iff the ticket is absent; among existing
tickets, Conflict iff already upload-locked; Forbidden iff unlocked but the
key differs; Gone iff unlocked, key correct, but no producer is held; and on
success the upload state becomes InProgress, a clone of the registry's
producer is returned, and the `uploads` map still holds that producer. Every
error leaves the registry untouched. -/
theorem begin_upload_cases (st : AppState) (t k : String) :
    (mapLookup t st.files = Option.none →
      st.begin_upload t k =
        (Except.error (StatusCode.NOT_FOUND, "Upload ticket does not exist"), st)) ∧
    (∀ m, mapLookup t st.files = some m → m.upload_locked = true →
      st.begin_upload t k =
        (Except.error (StatusCode.CONFLICT, "File is already locked for upload"), st)) ∧
    (∀ m, mapLookup t st.files = some m → m.upload_locked = false →
      m.check_key k = false →
      st.begin_upload t k =
        (Except.error (StatusCode.FORBIDDEN, "File has a different key"), st)) ∧
    (∀ m, mapLookup t st.files = some m → m.upload_locked = false →
      m.check_key k = true → mapLookup t st.uploads = Option.none →
      st.begin_upload t k =
        (Except.error (StatusCode.GONE, "Upload does not exist, it is already in progress"), st)) ∧
    (∀ m tx, mapLookup t st.files = some m → m.upload_locked = false →
      m.check_key k = true → mapLookup t st.uploads = some tx →
      st.begin_upload t k =
        (Except.ok (tx, if m.authenticated then st.auth_options else st.reg_options),
         { st with files := mapInsert t { m with upload := FileState.InProgress } st.files }) ∧
      (st.begin_upload t k).2.uploads = st.uploads ∧
      mapLookup t (st.begin_upload t k).2.uploads = some tx) := by
  refine ⟨?_, ?_, ?_, ?_, ?_⟩
  · intro hn
    unfold AppState.begin_upload
    rw [hn]
  · intro m hm hlock
    unfold AppState.begin_upload
    rw [hm]
    simp [hlock]
  · intro m hm hlock hkey
    unfold AppState.begin_upload
    rw [hm]
    simp [hlock, hkey]
  · intro m hm hlock hkey hup
    unfold AppState.begin_upload
    rw [hm]
    simp [hlock, hkey, hup]
  · intro m tx hm hlock hkey hup
    have hres : st.begin_upload t k =
        (Except.ok (tx, if m.authenticated then st.auth_options else st.reg_options),
         { st with files := mapInsert t { m with upload := FileState.InProgress } st.files }) := by
      unfold AppState.begin_upload
      rw [hm]
      simp [hlock, hkey, hup, FileMetadata.start_upload]
    refine ⟨hres, ?_, ?_⟩
    · rw [hres]
    · rw [hres]
      exact hup

/-- C4 witness: on the concrete fresh ticket, the correct key succeeds and
returns the registry's producer handle, while a wrong key is Forbidden. -/
theorem begin_upload_cases_witness :
    (exState.begin_upload "t1" "k1").1 = Except.ok (exSender, exRegOptions) ∧
    (exState.begin_upload "t1" "wrong").1 =
      Except.error (StatusCode.FORBIDDEN, "File has a different key") := by
  constructor
  · have h := (begin_upload_cases exState "t1" "k1").2.2.2.2 exMeta exSender
      (by rfl) (by rfl) (by rfl) (by rfl)
    rw [h.1]
    rfl
  · have h := (begin_upload_cases exState "t1" "wrong").2.2.1 exMeta
      (by rfl) (by rfl) (by rfl)
    rw [h]

/-- C8: for an existing ticket whose download is InProgress, `return_download`
answers true, re-inserts the consumer into `downloads`, pauses the download,
and a subsequent `begin_download` succeeds and hands back that same consumer;
for an existing ticket in any other download state it answers false and
leaves the registry unchanged. -/
theorem return_download_pause_resume (st : AppState) (t : String) (rx : Receiver) :
    (∀ m, mapLookup t st.files = some m → m.download = FileState.InProgress →
      (st.return_download t rx).1 = true ∧
      (st.return_download t rx).2 =
        { st with
          downloads := mapInsert t rx st.downloads
          files := mapInsert t m.pause_download st.files } ∧
      ((st.return_download t rx).2.begin_download t).1 = some rx) ∧
    (∀ m, mapLookup t st.files = some m → m.download ≠ FileState.InProgress →
      st.return_download t rx = (false, st)) := by
  constructor
  · intro m hm hdl
    have hres : st.return_download t rx =
        (true,
         { st with
           downloads := mapInsert t rx st.downloads
           files := mapInsert t m.pause_download st.files }) := by
      unfold AppState.return_download
      rw [hm]
      simp [FileMetadata.download_pausable, hdl]
    refine ⟨by rw [hres], by rw [hres], ?_⟩
    rw [hres]
    unfold AppState.begin_download
    simp [FileMetadata.download_locked, FileMetadata.pause_download]
  · intro m hm hdl
    unfold AppState.return_download
    rw [hm]
    simp [FileMetadata.download_pausable, hdl]

/-- C8 witness: on the concrete in-progress download, returning consumer 5
pauses the ticket and `begin_download` resumes with consumer 5. -/
theorem return_download_pause_resume_witness :
    (exStateDl.return_download "t1" ⟨5⟩).1 = true ∧
    ((exStateDl.return_download "t1" ⟨5⟩).2.begin_download "t1").1 = some ⟨5⟩ :=
  ⟨((return_download_pause_resume exStateDl "t1" ⟨5⟩).1 exMetaDl (by rfl) (by rfl)).1,
   ((return_download_pause_resume exStateDl "t1" ⟨5⟩).1 exMetaDl (by rfl) (by rfl)).2.2⟩

/-- C6 (amended): `AppState::set_metadata` writes the given compression value
directly onto the `compression` field and never modifies
`file_size.file_size_trustworthy` (with compression argument None the
metadata is returned unchanged). The trustworthiness flip described by the
spec lives only in `FileMetadata::set_compression` (non-None ↦ false,
None ↦ true), which `set_metadata` does not call. -/
theorem set_metadata_compression (st : AppState) (t : String) (m : FileMetadata)
    (c : Option Compression)
    (hm : mapLookup t st.files = some m) :
    (st.set_metadata t Option.none Option.none c).1 = true ∧
    (∀ c', c = some c' →
      mapLookup t (st.set_metadata t Option.none Option.none c).2.files =
        some { m with compression := c' }) ∧
    (c = Option.none →
      mapLookup t (st.set_metadata t Option.none Option.none c).2.files = some m) ∧
    (∀ m', mapLookup t (st.set_metadata t Option.none Option.none c).2.files = some m' →
      m'.file_size.file_size_trustworthy = m.file_size.file_size_trustworthy) ∧
    (∀ c', (m.set_compression c').file_size.file_size_trustworthy =
      (c' == Compression.None)) := by
  have hset : ∀ c', (m.set_compression c').file_size.file_size_trustworthy =
      (c' == Compression.None) := by
    intro c'
    cases c' <;> rfl
  cases c with
  | none =>
    have hres : st.set_metadata t Option.none Option.none Option.none =
        (true, { st with files := mapInsert t m st.files }) := by
      unfold AppState.set_metadata
      rw [hm]
    refine ⟨?_, ?_, ?_, ?_, hset⟩
    · rw [hres]
    · intro c' hc
      exact absurd hc (by simp)
    · intro _
      rw [hres]
      simp
    · intro m' hm'
      rw [hres] at hm'
      simp at hm'
      rw [← hm']
  | some c₀ =>
    have hres : st.set_metadata t Option.none Option.none (some c₀) =
        (true, { st with files := mapInsert t { m with compression := c₀ } st.files }) := by
      unfold AppState.set_metadata
      rw [hm]
    refine ⟨?_, ?_, ?_, ?_, hset⟩
    · rw [hres]
    · intro c' hc
      injection hc with h
      subst h
      rw [hres]
      simp
    · intro hc
      exact absurd hc (by simp)
    · intro m' hm'
      rw [hres] at hm'
      simp at hm'
      rw [← hm']

/-- C6 witness: setting gzip on the concrete fresh ticket updates the
compression field. -/
theorem set_metadata_compression_witness :
    mapLookup "t1"
        (exState.set_metadata "t1" Option.none Option.none (some Compression.Gzip)).2.files =
      some { exMeta with compression := Compression.Gzip } :=
  (set_metadata_compression exState "t1" exMeta (some Compression.Gzip)
    (by rfl)).2.1 Compression.Gzip rfl

/-- C6 counterexample: the fresh ticket has `file_size_trustworthy = true`;
after `set_metadata` with compression Some(gzip) the flag is still true, not
false as the claim states. -/
theorem set_metadata_trustworthy_cex :
    exMeta.file_size.file_size_trustworthy = true ∧
    (mapLookup "t1"
        (exState.set_metadata "t1" Option.none Option.none (some Compression.Gzip)).2.files).map
      (fun m => m.file_size.file_size_trustworthy) = some true ∧
    (mapLookup "t1"
        (exState.set_metadata "t1" Option.none Option.none (some Compression.Gzip)).2.files).map
      (fun m => m.compression) = some Compression.Gzip :=
  ⟨rfl, by rfl, by rfl⟩

/-- C7 (amended): for a ticket that is already authenticated (with its
`authed_user` set, as every upgraded ticket has), `upgrade` returns the
current metadata unchanged and touches no state — but only when the response
list is nonempty; with the empty list the loop body never runs and `upgrade`
returns None, still leaving all state untouched. -/
theorem upgrade_already_authenticated
    (verify : String → String → String → Bool) (st : AppState) (t : String)
    (file : FileMetadata) (u np nk : String) (now : Int) (fid : Nat)
    (rs : List String)
    (hm : mapLookup t st.files = some file)
    (hu : file.authed_user = some u)
    (hauth : file.authenticated = true) :
    (rs ≠ [] → AppState.upgrade verify st t rs np nk now fid = (some file, st)) ∧
    (AppState.upgrade verify st t [] np nk now fid = (Option.none, st)) := by
  constructor
  · intro hne
    cases rs with
    | nil => exact absurd rfl hne
    | cons r rest =>
      unfold AppState.upgrade
      rw [hm]
      simp [FileMetadata.get_challenge_details, hu, hauth]
  · unfold AppState.upgrade
    rw [hm]
    simp [FileMetadata.get_challenge_details, hu]

/-- C7 witness: the concrete authenticated ticket with a one-element response
list gets its current metadata back with nothing changed. -/
theorem upgrade_already_authenticated_witness :
    AppState.upgrade exVerify exStateAuth "t1" ["anything"] "p2" "k2" 5 7 =
      (some exMetaAuth, exStateAuth) :=
  (upgrade_already_authenticated exVerify exStateAuth "t1" exMetaAuth "alice"
    "p2" "k2" 5 7 ["anything"] (by rfl) (by rfl) (by rfl)).1 (by simp)

/-- C7 counterexample: the authenticated ticket queried with the empty
response list yields None, not the current metadata as the claim states for
every list. -/
theorem upgrade_authenticated_empty_list_cex :
    exMetaAuth.authenticated = true ∧
    AppState.upgrade exVerify exStateAuth "t1" [] "p2" "k2" 5 7 =
      (Option.none, exStateAuth) :=
  ⟨rfl, by rfl⟩

/-- C1 (amended): for a not-yet-authenticated ticket with an intended user,
`upgrade` examines only the first challenge response: the empty list yields
None with the state untouched; a list whose head fails verification yields
None with the state untouched even if a later entry would verify; a list
whose head verifies yields the upgraded metadata (authenticated, rotated
path and upload key, refreshed access time). -/
theorem upgrade_head_decides
    (verify : String → String → String → Bool) (st : AppState) (t : String)
    (file : FileMetadata) (u np nk : String) (now : Int) (fid : Nat)
    (hm : mapLookup t st.files = some file)
    (hu : file.authed_user = some u)
    (hauth : file.authenticated = false) :
    (AppState.upgrade verify st t [] np nk now fid = (Option.none, st)) ∧
    (∀ r rest, verify u file.challenge r = false →
      AppState.upgrade verify st t (r :: rest) np nk now fid = (Option.none, st)) ∧
    (∀ r rest, verify u file.challenge r = true →
      (AppState.upgrade verify st t (r :: rest) np nk now fid).1 =
        some (file.upgrade np nk now)) := by
  refine ⟨?_, ?_, ?_⟩
  · unfold AppState.upgrade
    rw [hm]
    simp [FileMetadata.get_challenge_details, hu]
  · intro r rest hv
    unfold AppState.upgrade
    rw [hm]
    simp [FileMetadata.get_challenge_details, hu, hauth, hv]
  · intro r rest hv
    unfold AppState.upgrade
    rw [hm]
    simp [FileMetadata.get_challenge_details, hu, hauth, hv]

/-- C1 witness: with the verifying response first, the concrete ticket is
upgraded. -/
theorem upgrade_head_decides_witness :
    (AppState.upgrade exVerify exState "t1" ["good"] "p2" "k2" 5 7).1 =
      some (exMeta.upgrade "p2" "k2" 5) :=
  (upgrade_head_decides exVerify exState "t1" exMeta "alice" "p2" "k2" 5 7
    (by rfl) (by rfl) (by rfl)).2.2 "good" [] (by rfl)

/-- C1 counterexample: the response list ["bad", "good"] contains a response
that verifies against the user's keys ("good"), yet `upgrade` returns None
and leaves the registry unchanged, because the loop returns upon the first
non-verifying entry. -/
theorem upgrade_skips_later_responses_cex :
    exVerify "alice" "c1" "good" = true ∧
    AppState.upgrade exVerify exState "t1" ["bad", "good"] "p2" "k2" 5 7 =
      (Option.none, exState) :=
  ⟨rfl, by rfl⟩

/-- Deleting one ticket does not disturb the `files` entry of another. -/
theorem delete_preserves_other (s : AppState) (id t : String) (h : id ≠ t) :
    mapLookup t (s.delete id).2.files = mapLookup t s.files := by
  unfold AppState.delete
  by_cases hs : (mapLookup id s.files).isSome = true
  · simp only [hs, if_pos]
    exact mapLookup_erase_ne id t s.files (Ne.symm h)
  · simp [hs]

/-- A ticket already absent from `files` stays absent across any delete. -/
theorem delete_preserves_none (s : AppState) (id t : String)
    (h : mapLookup t s.files = Option.none) :
    mapLookup t (s.delete id).2.files = Option.none := by
  unfold AppState.delete
  by_cases hs : (mapLookup id s.files).isSome = true
  · simp only [hs, if_pos]
    by_cases hit : id = t
    · subst hit
      exact mapLookup_erase_self id s.files
    · rw [mapLookup_erase_ne id t s.files (Ne.symm hit)]
      exact h
  · simp [hs, h]

/-- A ticket named by none of the ids survives the deletion loop of `cull`
with its metadata intact. -/
theorem foldl_delete_preserves (l : List String) : ∀ (s : AppState) (t : String),
    (∀ id ∈ l, id ≠ t) →
    mapLookup t (l.foldl (fun s id => (s.delete id).2) s).files = mapLookup t s.files := by
  induction l with
  | nil =>
    intro s t _
    rfl
  | cons a l ih =>
    intro s t h
    simp only [List.foldl_cons]
    rw [ih _ t (fun id hid => h id (List.mem_cons_of_mem a hid))]
    exact delete_preserves_other s a t (h a (List.mem_cons_self a l))

/-- An absent ticket stays absent across the deletion loop. -/
theorem foldl_delete_none (l : List String) : ∀ (s : AppState) (t : String),
    mapLookup t s.files = Option.none →
    mapLookup t (l.foldl (fun s id => (s.delete id).2) s).files = Option.none := by
  induction l with
  | nil =>
    intro s t h
    exact h
  | cons a l ih =>
    intro s t h
    exact ih _ t (delete_preserves_none s a t h)

/-- Every ticket named in the list is gone after the deletion loop. -/
theorem foldl_delete_mem (l : List String) : ∀ (s : AppState) (t : String), t ∈ l →
    mapLookup t (l.foldl (fun s id => (s.delete id).2) s).files = Option.none := by
  induction l with
  | nil =>
    intro s t h
    cases h
  | cons a l ih =>
    intro s t h
    by_cases hat : t ∈ l
    · exact ih _ t hat
    · have hta : a = t := by
        cases h with
        | head => rfl
        | tail _ h' => exact absurd h' hat
      subst hta
      simp only [List.foldl_cons]
      apply foldl_delete_none
      unfold AppState.delete
      by_cases hs : (mapLookup a s.files).isSome = true
      · simp only [hs, if_pos]
        exact mapLookup_erase_self a s.files
      · simp only [hs]
        cases hl : mapLookup a s.files with
        | none => simp [hl]
        | some v =>
          rw [hl] at hs
          simp at hs

/-- C3 (amended): `cull` selects a stale ticket whenever at least one of its
sides is still NotStarted (`is_in_waiting_state` is the disjunction), so a
ticket whose upload is InProgress is still culled while its download has not
started; only a ticket on which both upload and download have left NotStarted
is never culled, however old. -/
theorem cull_eligibility (st : AppState) (now : Int) (t : String) (m : FileMetadata)
    (hm : mapLookup t st.files = some m) :
    (m.upload ≠ FileState.NotStarted → m.download ≠ FileState.NotStarted →
      mapLookup t (st.cull now).2.files = some m) ∧
    (m.is_in_waiting_state = true →
      m.age now >
        (if m.authenticated then st.auth_options.cull_time else st.reg_options.cull_time) →
      mapLookup t (st.cull now).2.files = Option.none) := by
  constructor
  · intro hu hd
    have h1 : (m.download == FileState.NotStarted) = false := beq_eq_false_iff_ne.mpr hd
    have h2 : (m.upload == FileState.NotStarted) = false := beq_eq_false_iff_ne.mpr hu
    have hwait : m.is_in_waiting_state = false := by
      simp [FileMetadata.is_in_waiting_state, h1, h2]
    show mapLookup t
      ((AppState.cullCandidates st now).foldl (fun s id => (s.delete id).2) st).files = some m
    rw [foldl_delete_preserves (AppState.cullCandidates st now) st t ?h]
    · exact hm
    case h =>
      intro id hid
      intro hidt
      subst hidt
      have h2 := (List.mem_filter.mp hid).2
      simp only [hm] at h2
      rw [hwait] at h2
      cases h2
  · intro hwait hage
    show mapLookup t
      ((AppState.cullCandidates st now).foldl (fun s id => (s.delete id).2) st).files = Option.none
    apply foldl_delete_mem
    apply List.mem_filter.mpr
    constructor
    · apply List.mem_filter.mpr
      constructor
      · exact mapLookup_mem_keys t m st.files hm
      · simp only [hm]
        exact decide_eq_true hage
    · simp only [hm]
      exact hwait

/-- C3 witness: the concrete ticket with both sides InProgress survives a
cull performed long past the timeout. -/
theorem cull_eligibility_witness :
    mapLookup "t1" (exStateBoth.cull 1000000).2.files = some exMetaBoth :=
  (cull_eligibility exStateBoth 1000000 "t1" exMetaBoth (by rfl)).1
    (by decide) (by decide)

/-- C3 counterexample: a ticket whose upload is InProgress (download not yet
started) and whose accessed age far exceeds the public tier's 1-hour cull
time is deleted by `cull`, contradicting the claim that an InProgress upload
is never culled. -/
theorem cull_deletes_inprogress_upload_cex :
    exMetaLocked.upload = FileState.InProgress ∧
    mapLookup "t1" (exStateLocked.cull 1000000).2.files = Option.none :=
  ⟨rfl, by rfl⟩

/-- The inner flush loop on the empty buffer sends nothing, whatever the fuel. -/
theorem flushLoop_nil (b : Nat) : ∀ fuel, flushLoop b fuel ([] : List Nat) = ([], []) := by
  intro fuel
  cases fuel with
  | zero => rfl
  | succ f =>
    unfold flushLoop
    rw [if_neg]
    rintro ⟨h1, h2⟩
    simp at h2
    omega

/-- The flush loop's result does not depend on the fuel once the fuel covers
the buffer length (each round consumes at least one byte). -/
theorem flushLoop_fuel_le (b : Nat) : ∀ f1 f2 (buf : List Nat), buf.length ≤ f1 →
    buf.length ≤ f2 → flushLoop b f1 buf = flushLoop b f2 buf := by
  intro f1
  induction f1 with
  | zero =>
    intro f2 buf h1 _
    have hx : buf = [] := List.eq_nil_of_length_eq_zero (Nat.le_zero.mp h1)
    subst hx
    rw [flushLoop_nil, flushLoop_nil]
  | succ f ih =>
    intro f2 buf h1 h2
    cases f2 with
    | zero =>
      have hx : buf = [] := List.eq_nil_of_length_eq_zero (Nat.le_zero.mp h2)
      subst hx
      rw [flushLoop_nil, flushLoop_nil]
    | succ f2' =>
      by_cases hc : 0 < b ∧ b ≤ buf.length
      · unfold flushLoop
        rw [if_pos hc, if_pos hc]
        rw [ih f2' (buf.drop b) (by rw [List.length_drop]; omega)
          (by rw [List.length_drop]; omega)]
      · unfold flushLoop
        rw [if_neg hc, if_neg hc]

/-- Definitional one-step equation of `flushLoop` at positive fuel. -/
theorem flushLoop_succ (b f : Nat) (buf : List Nat) :
    flushLoop b (f + 1) buf =
      if 0 < b ∧ b ≤ buf.length then
        (buf.take b :: (flushLoop b f (buf.drop b)).1, (flushLoop b f (buf.drop b)).2)
      else ([], buf) := rfl

/-- One-step unfolding of `flushBlocks` for a positive block size: exactly
the source's `while buffer.len() >= block_size` loop. -/
theorem flushBlocks_eq (b : Nat) (hb : 0 < b) (buf : List Nat) :
    flushBlocks b buf =
      if b ≤ buf.length then
        (buf.take b :: (flushBlocks b (buf.drop b)).1, (flushBlocks b (buf.drop b)).2)
      else ([], buf) := by
  unfold flushBlocks
  cases hlen : buf.length with
  | zero =>
    rw [if_neg (by omega)]
    rfl
  | succ n =>
    by_cases hc : b ≤ buf.length
    · rw [if_pos (show b ≤ n + 1 from hlen ▸ hc)]
      rw [flushLoop_succ, if_pos ⟨hb, hc⟩]
      rw [flushLoop_fuel_le b n (buf.drop b).length (buf.drop b)
        (by rw [List.length_drop]; omega) le_rfl]
    · rw [if_neg (show ¬b ≤ n + 1 from fun h => hc (by rw [hlen]; exact h))]
      rw [flushLoop_succ, if_neg (fun h => hc h.2)]

/-- Concatenating the flushed blocks with the final buffer restores the
original buffer. -/
theorem flushLoop_join (b : Nat) : ∀ fuel (buf : List Nat),
    (flushLoop b fuel buf).1.flatten ++ (flushLoop b fuel buf).2 = buf := by
  intro fuel
  induction fuel with
  | zero =>
    intro buf
    simp [flushLoop]
  | succ f ih =>
    intro buf
    by_cases hc : 0 < b ∧ b ≤ buf.length
    · unfold flushLoop
      rw [if_pos hc]
      simp only [List.flatten_cons]
      rw [List.append_assoc, ih (buf.drop b)]
      exact List.take_append_drop b buf
    · unfold flushLoop
      rw [if_neg hc]
      simp

/-- `flushBlocks` version of `flushLoop_join`. -/
theorem flushBlocks_join (b : Nat) (buf : List Nat) :
    (flushBlocks b buf).1.flatten ++ (flushBlocks b buf).2 = buf :=
  flushLoop_join b buf.length buf

/-- Every block the flush loop sends has exactly `b` bytes. -/
theorem flushLoop_block_length (b : Nat) : ∀ fuel (buf : List Nat) blk,
    blk ∈ (flushLoop b fuel buf).1 → blk.length = b := by
  intro fuel
  induction fuel with
  | zero =>
    intro buf blk h
    simp [flushLoop] at h
  | succ f ih =>
    intro buf blk h
    by_cases hc : 0 < b ∧ b ≤ buf.length
    · unfold flushLoop at h
      rw [if_pos hc] at h
      rcases List.mem_cons.mp h with h1 | h2
      · rw [h1, List.length_take]
        exact inf_eq_left.mpr hc.2
      · exact ih (buf.drop b) blk h2
    · unfold flushLoop at h
      rw [if_neg hc] at h
      simp at h

/-- The final buffer after flushing holds exactly `length % b` bytes. -/
theorem flushLoop_rem_length (b : Nat) (hb : 0 < b) : ∀ fuel (buf : List Nat),
    buf.length ≤ fuel → (flushLoop b fuel buf).2.length = buf.length % b := by
  intro fuel
  induction fuel with
  | zero =>
    intro buf h
    have hx : buf = [] := List.eq_nil_of_length_eq_zero (Nat.le_zero.mp h)
    subst hx
    simp [flushLoop]
  | succ f ih =>
    intro buf h
    by_cases hc : 0 < b ∧ b ≤ buf.length
    · unfold flushLoop
      rw [if_pos hc]
      show (flushLoop b f (buf.drop b)).2.length = buf.length % b
      rw [ih (buf.drop b) (by rw [List.length_drop]; omega), List.length_drop]
      exact (Nat.mod_eq_sub_mod hc.2).symm
    · unfold flushLoop
      rw [if_neg hc]
      have hlt : buf.length < b := by omega
      exact (Nat.mod_eq_of_lt hlt).symm

/-- The flush loop sends exactly `length / b` blocks. -/
theorem flushLoop_count (b : Nat) (hb : 0 < b) : ∀ fuel (buf : List Nat),
    buf.length ≤ fuel → (flushLoop b fuel buf).1.length = buf.length / b := by
  intro fuel
  induction fuel with
  | zero =>
    intro buf h
    have hx : buf = [] := List.eq_nil_of_length_eq_zero (Nat.le_zero.mp h)
    subst hx
    simp [flushLoop]
  | succ f ih =>
    intro buf h
    by_cases hc : 0 < b ∧ b ≤ buf.length
    · unfold flushLoop
      rw [if_pos hc]
      show (flushLoop b f (buf.drop b)).1.length + 1 = buf.length / b
      rw [ih (buf.drop b) (by rw [List.length_drop]; omega), List.length_drop]
      exact (Nat.div_eq_sub_div hb hc.2).symm
    · unfold flushLoop
      rw [if_neg hc]
      have hlt : buf.length < b := by omega
      exact (Nat.div_eq_of_lt hlt).symm

/-- Flushing a concatenation flushes the left part first, then continues with
the left remainder glued to the right part. -/
theorem flushBlocks_append (b : Nat) (hb : 0 < b) : ∀ fuel (x y : List Nat),
    x.length ≤ fuel →
    flushBlocks b (x ++ y) =
      ((flushBlocks b x).1 ++ (flushBlocks b ((flushBlocks b x).2 ++ y)).1,
       (flushBlocks b ((flushBlocks b x).2 ++ y)).2) := by
  intro fuel
  induction fuel with
  | zero =>
    intro x y h
    have hx : x = [] := List.eq_nil_of_length_eq_zero (Nat.le_zero.mp h)
    subst hx
    have h0 : flushBlocks b ([] : List Nat) = ([], []) := rfl
    rw [List.nil_append, h0]
    simp only [List.nil_append]
  | succ f ih =>
    intro x y h
    by_cases hc : b ≤ x.length
    · have hxy : b ≤ (x ++ y).length := by
        rw [List.length_append]
        omega
      rw [flushBlocks_eq b hb (x ++ y), if_pos hxy]
      rw [flushBlocks_eq b hb x, if_pos hc]
      rw [List.take_append_of_le_length hc, List.drop_append_of_le_length hc]
      rw [ih (x.drop b) y (by rw [List.length_drop]; omega)]
      simp [List.cons_append]
    · rw [flushBlocks_eq b hb x, if_neg hc]
      simp only [List.nil_append]

/-- Folding the handler's per-network-chunk step over a chunk list, starting
from blocks `B` and a buffer `r` shorter than a block, flushes exactly the
flattened stream appended to `r`. -/
theorem foldl_flush (b : Nat) (hb : 0 < b) : ∀ (cs : List (List Nat))
    (B : List (List Nat)) (r : List Nat), r.length < b →
    List.foldl (fun acc c =>
      ((acc.1 ++ (flushBlocks b (acc.2 ++ c)).1, (flushBlocks b (acc.2 ++ c)).2) :
        List (List Nat) × List Nat)) (B, r) cs =
    (B ++ (flushBlocks b (r ++ cs.flatten)).1, (flushBlocks b (r ++ cs.flatten)).2) := by
  intro cs
  induction cs with
  | nil =>
    intro B r hr
    simp only [List.foldl_nil, List.flatten_nil, List.append_nil]
    have hfr : flushBlocks b r = ([], r) := by
      rw [flushBlocks_eq b hb r, if_neg (by omega)]
    rw [hfr]
    simp
  | cons c cs ih =>
    intro B r hr
    simp only [List.foldl_cons]
    have hrem : (flushBlocks b (r ++ c)).2.length < b := by
      rw [show (flushBlocks b (r ++ c)).2 = (flushLoop b (r ++ c).length (r ++ c)).2 from rfl]
      rw [flushLoop_rem_length b hb (r ++ c).length (r ++ c) le_rfl]
      exact Nat.mod_lt _ hb
    rw [ih _ _ hrem]
    rw [List.flatten_cons,
      show r ++ (c ++ cs.flatten) = (r ++ c) ++ cs.flatten from (List.append_assoc r c cs.flatten).symm]
    rw [flushBlocks_append b hb (r ++ c).length (r ++ c) cs.flatten le_rfl]
    simp [List.append_assoc]

/-- C5: for a positive block size `b`, the upload handler enqueues exactly
`n / b` blocks of exactly `b` bytes, then the remaining `n % b` bytes as a
final chunk, then the zero-length sentinel; the payload chunks concatenate
back to the input stream byte for byte (`n` is the total input length,
independent of how the network delivered it). -/
theorem upload_chunking (b : Nat) (hb : 0 < b) (cs : List (List Nat)) :
    ∃ blocks rem,
      uploadSends b cs = blocks ++ [rem, ([] : List Nat)] ∧
      blocks.length = cs.flatten.length / b ∧
      (∀ blk ∈ blocks, blk.length = b) ∧
      rem.length = cs.flatten.length % b ∧
      blocks.flatten ++ rem = cs.flatten := by
  refine ⟨(flushBlocks b cs.flatten).1, (flushBlocks b cs.flatten).2, ?_, ?_, ?_, ?_, ?_⟩
  · unfold uploadSends processField
    rw [foldl_flush b hb cs [] [] (by simpa using hb)]
    simp
  · exact flushLoop_count b hb cs.flatten.length cs.flatten le_rfl
  · intro blk h
    exact flushLoop_block_length b cs.flatten.length cs.flatten blk h
  · exact flushLoop_rem_length b hb cs.flatten.length cs.flatten le_rfl
  · exact flushBlocks_join b cs.flatten

/-- C5 witness: 5 input bytes arriving as chunks of 3 and 2 with block size 2
are enqueued as two full blocks, a 1-byte remainder and the sentinel. -/
theorem upload_chunking_witness :
    ∃ blocks rem,
      uploadSends 2 [[1, 2, 3], [4, 5]] = blocks ++ [rem, ([] : List Nat)] ∧
      blocks.length = ([[1, 2, 3], [4, 5]] : List (List Nat)).flatten.length / 2 ∧
      (∀ blk ∈ blocks, blk.length = 2) ∧
      rem.length = ([[1, 2, 3], [4, 5]] : List (List Nat)).flatten.length % 2 ∧
      blocks.flatten ++ rem = ([[1, 2, 3], [4, 5]] : List (List Nat)).flatten :=
  upload_chunking 2 (by decide) [[1, 2, 3], [4, 5]]

end ByteBeam
